import Mathlib

/-!
Shallow embedding of the `django_inscode` scaffolding layer
(`src/django_inscode/views.py`, `mixins.py`, `repositories.py`) and proofs
about its pagination, validation-error formatting, repository CRUD logic,
service delegation and permission checking.

Querysets are embedded as Lean lists; Python slicing is embedded with its
exact index-normalisation semantics (negative indices measured from the end,
clamping at both ends).  Machine integers do not overflow in the modelled
code paths, so page numbers are `Int` and sizes are `Nat`.
-/

namespace DjangoInscode

/-- Python's index normalisation for slices on a sequence of length `len`:
a negative index is shifted by `len` and clamped below at `0`; a nonnegative
index is clamped above at `len`. -/
def pyIdx (len : Nat) (i : Int) : Nat :=
  if i < 0 then (len + i).toNat else min i.toNat len

/-- Python slice `xs[s:e]` (step 1) on a list. -/
def pySlice (xs : List α) (s e : Int) : List α :=
  let a := pyIdx xs.length s
  let b := pyIdx xs.length e
  (xs.drop a).take (b - a)

/-- `GenericModelView.paginate_queryset` / `ViewRetrieveModelMixin.paginate_queryset`
(`views.py` lines 302-320, `mixins.py` lines 237-255):

    start = (page_number - 1) * self.paginate_by
    end = start + self.paginate_by
    return queryset[start:end]

`paginate_by` is the view's configured page size (its default value,
`settings.DEFAULT_PAGINATED_BY`, lives in the settings module; every theorem
below holds for an arbitrary `paginate_by`, hence in particular for that
default). -/
def paginate_queryset (paginate_by : Nat) (queryset : List α) (page_number : Int) :
    List α :=
  let start := (page_number - 1) * paginate_by
  let stop := start + paginate_by
  pySlice queryset start stop

/-- `has_next` as computed by `ViewRetrieveModelMixin.list` (`mixins.py` line 308):
`len(paginated_queryset) == self.paginate_by`. -/
def listHasNext (paginate_by : Nat) (queryset : List α) (page_number : Int) : Bool :=
  (paginate_queryset paginate_by queryset page_number).length == paginate_by

section SliceLemmas

variable {α : Type _}

theorem pyIdx_nonneg (len : Nat) (i : Int) (h : 0 ≤ i) :
    pyIdx len i = min i.toNat len := by
  unfold pyIdx
  rw [if_neg (by omega)]

theorem pySlice_nonneg (xs : List α) (s e : Int) (hs : 0 ≤ s) (he : s ≤ e) :
    pySlice xs s e = (xs.drop s.toNat).take (e.toNat - s.toNat) := by
  unfold pySlice
  rw [pyIdx_nonneg _ _ hs, pyIdx_nonneg _ _ (le_trans hs he)]
  by_cases hlen : s.toNat ≤ xs.length
  · rw [min_eq_left hlen]
    rcases le_or_lt e.toNat xs.length with hE | hE
    · rw [min_eq_left hE]
    · rw [min_eq_right (le_of_lt hE)]
      -- both sides take everything that remains after the drop
      apply List.take_eq_take.mpr
      have hdl : (xs.drop s.toNat).length = xs.length - s.toNat := List.length_drop _ _
      omega
  · push_neg at hlen
    rw [min_eq_right (le_of_lt hlen)]
    have h1 : xs.drop xs.length = [] := List.drop_eq_nil_of_le le_rfl
    have h2 : xs.drop s.toNat = [] := List.drop_eq_nil_of_le (le_of_lt hlen)
    simp [h1, h2]

theorem paginate_drop_take (paginate_by : Nat) (q : List α) (n : Int)
    (h : 1 ≤ n) :
    paginate_queryset paginate_by q n =
      (q.drop ((n - 1).toNat * paginate_by)).take paginate_by := by
  unfold paginate_queryset
  have hs : (0 : Int) ≤ (n - 1) * paginate_by :=
    mul_nonneg (by omega) (Int.natCast_nonneg _)
  have he : (n - 1) * paginate_by ≤ (n - 1) * paginate_by + paginate_by := by omega
  rw [pySlice_nonneg q _ _ hs he]
  have hmul : ((n - 1) * (paginate_by : Int)).toNat = (n - 1).toNat * paginate_by := by
    have h1 : (n - 1) = ((n - 1).toNat : Int) := (Int.toNat_of_nonneg (by omega)).symm
    rw [h1]
    exact_mod_cast Int.toNat_natCast _
  have hadd : ((n - 1) * (paginate_by : Int) + paginate_by).toNat
      = (n - 1).toNat * paginate_by + paginate_by := by
    have h1 : (n - 1) = ((n - 1).toNat : Int) := (Int.toNat_of_nonneg (by omega)).symm
    rw [h1]
    exact_mod_cast Int.toNat_natCast _
  rw [hmul, hadd]
  congr 1
  omega

end SliceLemmas

end DjangoInscode

namespace DjangoInscode

/-- C1. For every queryset `q` and every page number `n ≥ 1`,
`paginate_queryset` returns exactly the contiguous slice of `q` from index
`(n-1)*paginate_by` (inclusive) to `(n-1)*paginate_by + paginate_by`
(exclusive) — stated as `(q.drop ((n-1)*paginate_by)).take paginate_by`,
which contains precisely the elements of `q` with indices in that range and
leaves `q` itself untouched (the embedding is a pure function of `q`).
Proved for every `paginate_by`, hence for the default
`settings.DEFAULT_PAGINATED_BY`. -/
theorem paginate_queryset_slice (paginate_by : Nat) (q : List α) (n : Int)
    (h : 1 ≤ n) :
    paginate_queryset paginate_by q n =
      (q.drop ((n - 1).toNat * paginate_by)).take paginate_by :=
  paginate_drop_take paginate_by q n h

/-- C1 witness at `paginate_by = 2`, `q = [10,20,30,40,50]`, `n = 2`. -/
theorem paginate_queryset_slice_witness :
    (1 : Int) ≤ 2 ∧
      paginate_queryset 2 [10, 20, 30, 40, 50] 2 =
        (([10, 20, 30, 40, 50] : List Nat).drop (((2 : Int) - 1).toNat * 2)).take 2 :=
  ⟨by decide, paginate_queryset_slice 2 [10, 20, 30, 40, 50] 2 (by decide)⟩

/-- C10. `paginate_queryset` contains no guard on `page_number`: for every
integer `n` it evaluates the slice
`queryset[(n-1)*paginate_by : (n-1)*paginate_by + paginate_by]` directly
(it is a total function, so it never raises `ValueError`), and at
`page_number = 0` the slice bounds are `-paginate_by` and `0`, which under
Python slice semantics yield the empty list. -/
theorem paginate_queryset_no_guard (paginate_by : Nat) (q : List α) :
    (∀ n : Int, paginate_queryset paginate_by q n =
        pySlice q ((n - 1) * paginate_by) ((n - 1) * paginate_by + paginate_by)) ∧
    paginate_queryset paginate_by q 0 =
      pySlice q (-(paginate_by : Int)) 0 ∧
    paginate_queryset paginate_by q 0 = [] := by
  have hzero : paginate_queryset paginate_by q 0 =
      pySlice q (-(paginate_by : Int)) 0 := by
    unfold paginate_queryset
    norm_num
  have hempty : pySlice q (-(paginate_by : Int)) 0 = [] := by
    simp [pySlice, pyIdx]
  exact ⟨fun n => rfl, hzero, hzero.trans hempty⟩

/-- C8. `has_next` in the pagination metadata equals
`len(paginated page) == paginate_by`: whenever the collection size is a
positive exact multiple `k * paginate_by` of the page size, the final page
`k` has exactly `paginate_by` items so `has_next` is `true` even though page
`k + 1` is empty; and every page holding fewer than `paginate_by` items
reports `has_next = false`. -/
theorem listHasNext_exact_multiple (paginate_by k : Nat) (q : List α)
    (hpb : 0 < paginate_by) (hk : 1 ≤ k) (hlen : q.length = k * paginate_by) :
    listHasNext paginate_by q k = true ∧
    paginate_queryset paginate_by q (k + 1) = [] ∧
    (∀ n : Int, (paginate_queryset paginate_by q n).length < paginate_by →
      listHasNext paginate_by q n = false) := by
  refine ⟨?_, ?_, ?_⟩
  · have hk1 : (1 : Int) ≤ (k : Int) := by exact_mod_cast hk
    unfold listHasNext
    rw [paginate_drop_take paginate_by q k hk1]
    have hstart : ((k : Int) - 1).toNat = k - 1 := by omega
    rw [hstart]
    have hdrop : (q.drop ((k - 1) * paginate_by)).length = paginate_by := by
      rw [List.length_drop, hlen]
      have : k * paginate_by - (k - 1) * paginate_by = paginate_by := by
        have h1 : (k - 1) * paginate_by + paginate_by = k * paginate_by := by
          have h2 : k - 1 + 1 = k := by omega
          calc (k - 1) * paginate_by + paginate_by = (k - 1 + 1) * paginate_by := by ring
            _ = k * paginate_by := by rw [h2]
        omega
      exact this
    have htake : ((q.drop ((k - 1) * paginate_by)).take paginate_by).length
        = paginate_by := by
      rw [List.length_take, hdrop, min_self]
    rw [htake]
    simp
  · have hk1 : (1 : Int) ≤ (k : Int) + 1 := by omega
    rw [paginate_drop_take paginate_by q (k + 1) hk1]
    have hstart : ((k : Int) + 1 - 1).toNat = k := by omega
    rw [hstart]
    have hdrop : q.drop (k * paginate_by) = [] :=
      List.drop_eq_nil_of_le (by omega)
    rw [hdrop, List.take_nil]
  · intro n hshort
    unfold listHasNext
    simp only [beq_eq_false_iff_ne, ne_eq]
    omega

/-- C8 witness at `paginate_by = 2`, `k = 2`, `q = [1,2,3,4]`. -/
theorem listHasNext_exact_multiple_witness :
    0 < 2 ∧ 1 ≤ 2 ∧ ([1, 2, 3, 4] : List Nat).length = 2 * 2 ∧
      (listHasNext 2 [1, 2, 3, 4] 2 = true ∧
       paginate_queryset 2 ([1, 2, 3, 4] : List Nat) (2 + 1) = [] ∧
       (∀ n : Int, (paginate_queryset 2 ([1, 2, 3, 4] : List Nat) n).length < 2 →
         listHasNext 2 ([1, 2, 3, 4] : List Nat) n = false)) :=
  ⟨by decide, by decide, by decide,
    listHasNext_exact_multiple 2 2 [1, 2, 3, 4] (by decide) (by decide) (by decide)⟩

end DjangoInscode

namespace DjangoInscode

/-- The `pagination` sub-object of the body built by
`ViewRetrieveModelMixin.list` (`mixins.py` lines 304-312). -/
structure PaginationMeta where
  current_page : Int
  total_items : Nat
  has_next : Bool
  has_previous : Bool
  deriving Repr, DecidableEq

/-- The JSON body built by `ViewRetrieveModelMixin.list`: exactly the two
top-level keys `pagination` and `results`. -/
structure ListBody (β : Type _) where
  pagination : PaginationMeta
  results : List β
  deriving Repr, DecidableEq

/-- `ViewRetrieveModelMixin.list` (`mixins.py` lines 276-314), after the
queryset has been produced (either through the filter class or through
`get_queryset(filter_kwargs)`).  `pageParam` is `request.GET.get("page")`
parsed as an integer (`int(request.GET.get("page", 1))` defaults to `1`);
`serialize` is `self.serialize_object`.  Returns the body and the HTTP
status. -/
def viewList (paginate_by : Nat) (serialize : α → β) (queryset : List α)
    (pageParam : Option Int) : ListBody β × Nat :=
  let page_number := pageParam.getD 1
  let paginated_queryset := paginate_queryset paginate_by queryset page_number
  let serialized_data := paginated_queryset.map serialize
  (⟨⟨page_number, queryset.length,
      paginated_queryset.length == paginate_by,
      decide (page_number > 1)⟩,
    serialized_data⟩, 200)

end DjangoInscode

namespace DjangoInscode

/-- C7. `ViewRetrieveModelMixin.list` answers with status 200 and a body of
exactly two top-level keys, `pagination` and `results` (the `ListBody`
structure): `current_page` is the requested page number (the parsed `page`
parameter, defaulting to 1), `total_items` is the count of the full filtered
queryset before slicing, `has_previous` is `page_number > 1`, and `results`
holds precisely the serialized objects of the requested page in queryset
order. -/
theorem viewList_spec (paginate_by : Nat) (serialize : α → β)
    (queryset : List α) (pageParam : Option Int) (h : 1 ≤ pageParam.getD 1) :
    (viewList paginate_by serialize queryset pageParam).2 = 200 ∧
    (viewList paginate_by serialize queryset pageParam).1.pagination.current_page
      = pageParam.getD 1 ∧
    (viewList paginate_by serialize queryset pageParam).1.pagination.total_items
      = queryset.length ∧
    (viewList paginate_by serialize queryset pageParam).1.pagination.has_previous
      = decide (pageParam.getD 1 > 1) ∧
    (viewList paginate_by serialize queryset pageParam).1.results
      = ((queryset.drop ((pageParam.getD 1 - 1).toNat * paginate_by)).take
          paginate_by).map serialize := by
  refine ⟨rfl, rfl, rfl, rfl, ?_⟩
  show (paginate_queryset paginate_by queryset (pageParam.getD 1)).map serialize = _
  rw [paginate_drop_take paginate_by queryset (pageParam.getD 1) h]

/-- C7 witness: page 2 of a five-element queryset with page size 2. -/
theorem viewList_spec_witness :
    1 ≤ (some (2 : Int)).getD 1 ∧
    ((viewList 2 (fun n => n + 100) [1, 2, 3, 4, 5] (some 2)).2 = 200 ∧
     (viewList 2 (fun n => n + 100) ([1, 2, 3, 4, 5] : List Nat)
        (some 2)).1.pagination.current_page = (some (2 : Int)).getD 1 ∧
     (viewList 2 (fun n => n + 100) ([1, 2, 3, 4, 5] : List Nat)
        (some 2)).1.pagination.total_items = ([1, 2, 3, 4, 5] : List Nat).length ∧
     (viewList 2 (fun n => n + 100) ([1, 2, 3, 4, 5] : List Nat)
        (some 2)).1.pagination.has_previous = decide ((some (2 : Int)).getD 1 > 1) ∧
     (viewList 2 (fun n => n + 100) ([1, 2, 3, 4, 5] : List Nat)
        (some 2)).1.results
       = ((([1, 2, 3, 4, 5] : List Nat).drop
            (((some (2 : Int)).getD 1 - 1).toNat * 2)).take 2).map
           (fun n => n + 100)) :=
  ⟨by decide, viewList_spec 2 (fun n => n + 100) [1, 2, 3, 4, 5] (some 2) (by decide)⟩

end DjangoInscode

namespace DjangoInscode

/-- One leaf Django `ValidationError` as inspected by
`Repository._format_validation_errors`: a `message` and interpolation
`params` (`None`/empty dict and a populated dict are distinguished by
Python truthiness, so `params` is a possibly empty association list). -/
structure FieldError where
  message : String
  params : List (String × String)
  deriving Repr, DecidableEq

/-- The three shapes a caught `ValidationError` can present to
`_format_validation_errors`: it `hasattr error_dict` (a mapping from field
name to a list of leaf errors), or else `hasattr error_list`, or neither. -/
inductive VErr where
  | dict (entries : List (String × List FieldError))
  | list (errs : List FieldError)
  | neither
  deriving Repr, DecidableEq

/-- `field_error.message % field_error.params if field_error.params else
field_error.message` — `fmt` is Python's `%` interpolation operator, kept
abstract. -/
def interpolate (fmt : String → List (String × String) → String)
    (fe : FieldError) : String :=
  if fe.params ≠ [] then fmt fe.message fe.params else fe.message

/-- `Repository._format_validation_errors` (`repositories.py` lines 39-67).
Each produced entry `{"field": f, "message": m}` is the pair `(f, m)` with
`f : Option String` (`None` becomes `none`). -/
def format_validation_errors (fmt : String → List (String × String) → String) :
    VErr → List (Option String × String)
  | .dict entries =>
      entries.flatMap fun e =>
        e.2.map fun fe => (some e.1, interpolate fmt fe)
  | .list errs =>
      errs.map fun fe => (none, interpolate fmt fe)
  | .neither => []

end DjangoInscode

namespace DjangoInscode

/-- C2. `_format_validation_errors` on an error carrying an `error_dict`
produces, in iteration order, one entry `(some f, m)` per field error of
every field `f`, where `m` is the interpolated message when `params` is
non-empty and the raw message otherwise, and its length is the total number
of field errors; on an error with only an `error_list` every entry's field
is `none` and the length is the number of errors; an error with neither
attribute yields `[]`. -/
theorem format_validation_errors_spec
    (fmt : String → List (String × String) → String)
    (entries : List (String × List FieldError)) (errs : List FieldError) :
    format_validation_errors fmt (.dict entries)
      = entries.flatMap (fun e => e.2.map fun fe =>
          (some e.1, if fe.params ≠ [] then fmt fe.message fe.params
                     else fe.message)) ∧
    (format_validation_errors fmt (.dict entries)).length
      = (entries.map fun e => e.2.length).sum ∧
    format_validation_errors fmt (.list errs)
      = errs.map (fun fe =>
          (none, if fe.params ≠ [] then fmt fe.message fe.params
                 else fe.message)) ∧
    (∀ x ∈ format_validation_errors fmt (.list errs), x.1 = none) ∧
    (format_validation_errors fmt (.list errs)).length = errs.length ∧
    format_validation_errors fmt .neither = [] := by
  refine ⟨rfl, ?_, rfl, ?_, ?_, rfl⟩
  · show (entries.flatMap fun e => e.2.map fun fe =>
        (some e.1, interpolate fmt fe)).length = _
    rw [List.length_flatMap]
    simp [Function.comp_def, List.length_map]
  · intro x hx
    simp only [format_validation_errors, List.mem_map] at hx
    obtain ⟨fe, _, hfe⟩ := hx
    rw [← hfe]
  · show (errs.map fun fe => (none, interpolate fmt fe)).length = _
    exact List.length_map _ _

end DjangoInscode

namespace DjangoInscode

/-- The field kinds `Repository` distinguishes through `isinstance` checks on
`model._meta.get_field(...)`: `ManyToManyField`, `ManyToManyRel` (reverse
many-to-many), a many-to-one relation (`field.is_relation and
field.many_to_one`, carrying `field.related_model`), or any other field. -/
inductive FieldKind where
  | manyToMany (relatedModel : String)
  | manyToManyRel (relatedModel : String)
  | foreignKey (relatedModel : String)
  | plain
  deriving Repr, DecidableEq

/-- A model field as seen through `_meta`: its name, kind, and its
`editable` attribute — `getattr(field, "editable", True)` defaults to `True`
for field classes without the attribute (e.g. `ManyToManyRel`), hence the
`Option`. -/
structure Field where
  name : String
  kind : FieldKind
  editable : Option Bool
  deriving Repr, DecidableEq

/-- `isinstance(field, (ManyToManyField, ManyToManyRel))`. -/
def Field.isM2M (f : Field) : Bool :=
  match f.kind with
  | .manyToMany _ => true
  | .manyToManyRel _ => true
  | _ => false

/-- `field.remote_field.model` / `field.related_model`, when the field is
relational. -/
def Field.relatedName (f : Field) : Option String :=
  match f.kind with
  | .manyToMany rm => some rm
  | .manyToManyRel rm => some rm
  | .foreignKey rm => some rm
  | .plain => none

/-- `model._meta`: the model name and its fields. -/
structure Meta where
  object_name : String
  fields : List Field
  deriving Repr, DecidableEq

/-- `model._meta.get_field(name)`; `none` models `FieldDoesNotExist`. -/
def Meta.get_field (m : Meta) (name : String) : Option Field :=
  m.fields.find? (fun f => f.name == name)

/-- The `editable_fields` list built by `Repository.update`
(`repositories.py` lines 224-228): the names of all fields whose
`getattr(field, "editable", True)` is true. -/
def Meta.editableFields (m : Meta) : List String :=
  (m.fields.filter (fun f => f.editable.getD true)).map (fun f => f.name)

/-- Whether `name` resolves to a many-to-many field of the model. -/
def Meta.isM2MKey (m : Meta) (name : String) : Bool :=
  match m.get_field name with
  | some f => f.isM2M
  | none => false

/-- Python values flowing through the repository: `None`, an `int` primary
key, a `str`/`UUID`, a model instance (identified by its model name and
primary key), or a list. -/
inductive Val where
  | none
  | pkInt (n : Int)
  | str (s : String)
  | inst (model : String) (pk : String)
  | listy (elems : List Val)

mutual

/-- Python `==` on the modelled values. -/
def Val.beq : Val → Val → Bool
  | .none, .none => true
  | .pkInt a, .pkInt b => a == b
  | .str a, .str b => a == b
  | .inst m p, .inst m2 p2 => m == m2 && p == p2
  | .listy a, .listy b => Val.beqList a b
  | _, _ => false

/-- Elementwise `Val.beq` on lists. -/
def Val.beqList : List Val → List Val → Bool
  | [], [] => true
  | a :: as, b :: bs => Val.beq a b && Val.beqList as bs
  | _, _ => false

end

instance : BEq Val := ⟨Val.beq⟩

/-- `isinstance(v, (int, UUID, str))` in the many-to-many branch of
`_save`. -/
def Val.isIdLike : Val → Bool
  | .pkInt _ => true
  | .str _ => true
  | _ => false

/-- `str(v)` for an id-like value (ids are compared as strings after the
`ids = [str(v) for v in value]` conversion). -/
def Val.idStr : Val → String
  | .pkInt n => toString n
  | .str s => s
  | .inst _ pk => pk
  | _ => ""

/-- An in-memory model instance: primary key, metadata and attributes. -/
structure Instance where
  id : Nat
  meta : Meta
  attrs : List (String × Val)

/-- `setattr(instance, k, v)`. -/
def Instance.setattr (i : Instance) (k : String) (v : Val) : Instance :=
  { i with attrs :=
      if i.attrs.any (fun kv => kv.1 == k) then
        i.attrs.map (fun kv => if kv.1 == k then (k, v) else kv)
      else i.attrs ++ [(k, v)] }

/-- Ghost trace of the database-effecting calls issued inside `_save`, used
to state ordering properties (`full_clean`, `save`, `relation.set`). -/
inductive DBEvent where
  | fullCleanEv (iid : Nat)
  | saveEv (iid : Nat)
  | setEv (iid : Nat) (field : String)
  deriving Repr, DecidableEq

/-- The database state: fresh-id counter, the rows of the repository's own
model, the primary keys present in each related model's table, the record of
`relation.set` assignments, and the ghost event trace. -/
structure DB where
  nextId : Nat
  objects : List Instance
  related : List (String × List String)
  m2mLog : List (Nat × String × List String)
  trace : List DBEvent

/-- The primary keys present in related model `rm`
(`related_model.objects`). -/
def lookupRelated (db : DB) (rm : String) : List String :=
  ((db.related.find? (fun p => p.1 == rm)).map (fun p => p.2)).getD []

/-- `getattr(instance, field_name).set(related_objects)`: records the
assignment and the ghost event. -/
def recordSet (db : DB) (iid : Nat) (field : String) (pks : List String) : DB :=
  { db with m2mLog := db.m2mLog ++ [(iid, field, pks)],
            trace := db.trace ++ [.setEv iid field] }

/-- `instance.save()`: upserts the row and records the ghost event. -/
def saveInstanceRow (db : DB) (inst : Instance) : DB :=
  { db with
      objects :=
        if db.objects.any (fun o => o.id == inst.id) then
          db.objects.map (fun o => if o.id == inst.id then inst else o)
        else db.objects ++ [inst],
      nextId := max db.nextId (inst.id + 1),
      trace := db.trace ++ [.saveEv inst.id] }

/-- A Django leaf `ValidationError` list/dict as produced by `full_clean`,
plus the exceptions of the package.

Modelled from the spec: the package's `exceptions` module (`BadRequest`,
`InternalServerError`, `NotFound`, `Forbidden`) is not among the sources
here; each is modelled as a distinct exception shape, none of them a
subclass of Django's `ValidationError`, carrying the message and errors
payload it is constructed with (a dict payload `{field: msg}` becomes
`(some field, msg)` entries, a `"field": None` entry becomes `none`).
`uncaughtName` stands for any other raised exception (e.g. database
errors), identified by its text. -/
inductive PyExc where
  | validationError (v : VErr)
  | badRequest (message : Option String) (errors : List (Option String × String))
  | internalServerError (errors : List (Option String × String))
  | notFound (message : String)
  | forbidden (message : String)
  | uncaughtName (text : String)
  deriving Repr, DecidableEq

/-- `str(e)` on a caught exception, as used when re-raising
`InternalServerError(errors={"internal_server_error": str(e)})`. -/
def PyExc.pyStr : PyExc → String
  | .validationError _ => "ValidationError"
  | .badRequest m _ => m.getD "Bad Request"
  | .internalServerError _ => "Internal Server Error"
  | .notFound m => m
  | .forbidden m => m
  | .uncaughtName t => t

/-- The framework-provided behaviour `_save`, `delete` depend on:
`fmt` is Python `%` interpolation, `fullClean` the outcome of
`instance.full_clean()` (`some v` meaning `ValidationError v` is raised),
`deleteError` an exception text raised by `instance.delete()` if the
deletion fails. -/
structure Env where
  fmt : String → List (String × String) → String
  fullClean : Instance → Option VErr
  deleteError : Option String

end DjangoInscode

namespace DjangoInscode

/-- One iteration of the many-to-many loop inside `_save`
(`repositories.py` lines 89-144) on `(field_name, value)`.  The loop state
is the database plus the `related_model` local variable, which Python only
rebinds when the looked-up field is many-to-many (it keeps its previous
binding otherwise, and using it while unbound raises `UnboundLocalError`).
Returns the raised exception (if any), the database and the new
`related_model` binding. -/
def m2mSetStep (inst : Instance) (db : DB) (lastRM : Option String)
    (field_name : String) (value : Val) : Option PyExc × DB × Option String :=
  match inst.meta.get_field field_name with
    | Option.none =>
        (some (.badRequest (some "Campo inexistente.")
            [(some field_name, "Este campo não existe no modelo.")]), db, lastRM)
    | some f =>
      let rm := if f.isM2M then f.relatedName else lastRM
      match value with
      | .listy elems =>
        if elems.all Val.isIdLike then
          let ids := elems.map Val.idStr
          match rm with
          | Option.none => (some (.uncaughtName "UnboundLocalError"), db, rm)
          | some relatedModel =>
            let related_objects :=
              (lookupRelated db relatedModel).filter (fun pk => ids.contains pk)
            if related_objects.length == elems.length then
              (Option.none, recordSet db inst.id field_name related_objects, rm)
            else
              let missing :=
                (ids.filter (fun i => !(related_objects.contains i))).dedup
              (some (.badRequest
                  (some "Alguns objetos relacionados não foram encontrados.")
                  [(some field_name,
                    "IDs inválidos: " ++ String.intercalate ", " missing ++ ".")]),
                db, rm)
        else
          (Option.none,
            recordSet db inst.id field_name (elems.map Val.idStr), rm)
      | _ =>
        (some (.badRequest (some "Valor inválido para o campo ManyToMany.")
            [(some field_name, "Esperada uma lista de IDs ou instâncias.")]),
          db, rm)

/-- The whole many-to-many loop of `_save`, iterated in dictionary order;
stops at the first raised exception, carrying the mutations made so far. -/
def runM2M (inst : Instance) : DB → Option String → List (String × Val) →
    Option PyExc × DB
  | db, _, [] => (Option.none, db)
  | db, lastRM, (fname, value) :: rest =>
    match m2mSetStep inst db lastRM fname value with
    | (some e, db1, _) => (some e, db1)
    | (Option.none, db1, rm1) => runM2M inst db1 rm1 rest

/-- The body of `_save` before exception translation:
`instance.full_clean()`, `instance.save()`, then the many-to-many loop. -/
def saveBody (env : Env) (inst : Instance) (m2m : List (String × Val))
    (db : DB) : Option PyExc × DB :=
  match env.fullClean inst with
  | some v => (some (.validationError v), db)
  | Option.none =>
    let db1 := { db with trace := db.trace ++ [.fullCleanEv inst.id] }
    let db2 := saveInstanceRow db1 inst
    runM2M inst db2 Option.none m2m

/-- The `try/except` of `_save` (`repositories.py` lines 84, 146-149): a
`ValidationError` becomes `BadRequest(errors=self._format_validation_errors(e))`;
any other exception becomes
`InternalServerError(errors={"internal_server_error": str(e)})`. -/
def trySaveBody (env : Env) (inst : Instance) (m2m : List (String × Val))
    (db : DB) : Option PyExc × DB :=
  match saveBody env inst m2m db with
  | (Option.none, db1) => (Option.none, db1)
  | (some (.validationError v), db1) =>
      (some (.badRequest Option.none (format_validation_errors env.fmt v)), db1)
  | (some e, db1) =>
      (some (.internalServerError [(some "internal_server_error", e.pyStr)]), db1)

/-- `transaction.atomic()`: if the body raises, every mutation it made is
rolled back and the exception propagates. -/
def atomic (db : DB) (body : DB → Option PyExc × DB) : Option PyExc × DB :=
  match body db with
  | (Option.none, db1) => (Option.none, db1)
  | (some e, _) => (some e, db)

/-- `Repository._save` (`repositories.py` lines 69-149): the translated
body inside `transaction.atomic()`. -/
def Repository._save (env : Env) (inst : Instance) (m2m : List (String × Val))
    (db : DB) : Option PyExc × DB :=
  atomic db (trySaveBody env inst m2m)

/-- The first loop of `Repository.create` (`repositories.py` lines 167-178):
walk the data in order, collect the entries whose field is
`ManyToManyField`/`ManyToManyRel`, and raise `BadRequest` at the first key
with no model field. -/
def collectM2M (meta : Meta) : List (String × Val) →
    Except PyExc (List (String × Val))
  | [] => .ok []
  | (k, v) :: rest =>
    match meta.get_field k with
    | Option.none =>
        .error (.badRequest (some "Campo inexistente.")
          [(some k, "Este campo não existe no modelo.")])
    | some f =>
      match collectM2M meta rest with
      | .error e => .error e
      | .ok tail => .ok (if f.isM2M then (k, v) :: tail else tail)

/-- `Repository.create` (`repositories.py` lines 151-185): split off the
many-to-many entries, construct the instance from the remaining data
(`self.model(**data)` assigns a fresh primary key here), `_save`, and
return the instance. -/
def Repository.create (env : Env) (meta : Meta) (db : DB)
    (data : List (String × Val)) : Option PyExc × DB × Option Instance :=
  match collectM2M meta data with
  | .error e => (some e, db, Option.none)
  | .ok m2m =>
    let remaining := data.filter (fun kv => !(meta.isM2MKey kv.1))
    let inst : Instance := ⟨db.nextId, meta, remaining⟩
    match Repository._save env inst m2m db with
    | (Option.none, db1) => (Option.none, db1, some inst)
    | (some e, db1) => (some e, db1, Option.none)

/-- `Repository.read` (`repositories.py` lines 187-204):
`self.model.objects.get(id=id)`, raising `NotFound` when the row does not
exist. -/
def Repository.read (meta : Meta) (db : DB) (id : Nat) :
    Except PyExc Instance :=
  match db.objects.find? (fun o => o.id == id) with
  | some inst => .ok inst
  | Option.none => .error (.notFound (meta.object_name ++ " não encontrado"))

/-- Python `s.endswith(suffix)`, computed on the character sequence. -/
def pyEndsWith (s suffix : String) : Bool :=
  suffix.data.isSuffixOf s.data

/-- The `_id`-suffix normalisation of `Repository.update`
(`repositories.py` line 233): `key[:-3] if key.endswith("_id") else key`. -/
def normalizeKey (k : String) : String :=
  if pyEndsWith k "_id" then k.dropRight 3 else k

/-- One iteration of the `Repository.update` data loop
(`repositories.py` lines 232-281) on `(key, value)`.  The loop state is the
in-memory instance and the accumulated `many_to_many_data`; `db` is read
only (for `related_model.objects.get(pk=value)`). -/
def updateStep (db : DB) (editable_fields : List String)
    (st : Instance × List (String × Val)) (kv : String × Val) :
    Except PyExc (Instance × List (String × Val)) :=
  let inst := st.1
  let m2m := st.2
  let field_name := normalizeKey kv.1
  match inst.meta.get_field field_name with
  | Option.none =>
      .error (.badRequest (some "Campo inexistente.")
        [(some field_name, "Este campo não existe no modelo.")])
  | some f =>
    let m2m1 := if f.isM2M then m2m ++ [(field_name, kv.2)] else m2m
    if editable_fields.contains field_name then
      if f.isM2M then .ok (inst, m2m1)
      else
        match f.kind with
        | .foreignKey rm =>
          match kv.2 with
          | .none => .ok (inst.setattr field_name .none, m2m1)
          | .inst m pk =>
            if m == rm then .ok (inst.setattr field_name (.inst m pk), m2m1)
            else if (lookupRelated db rm).contains pk then
              .ok (inst.setattr field_name (.inst rm pk), m2m1)
            else
              .error (.badRequest
                (some ("Objeto relacionado não encontrado para o campo "
                  ++ field_name))
                [(some field_name, "Referência inválida")])
          | v =>
            if (lookupRelated db rm).contains v.idStr then
              .ok (inst.setattr field_name (.inst rm v.idStr), m2m1)
            else
              .error (.badRequest
                (some ("Objeto relacionado não encontrado para o campo "
                  ++ field_name))
                [(some field_name, "Referência inválida")])
        | _ => .ok (inst.setattr field_name kv.2, m2m1)
    else .ok (inst, m2m1)

/-- `Repository.update` (`repositories.py` lines 206-284): read the
instance, build `editable_fields` from its meta, run the data loop, then
`_save` with the collected many-to-many data. -/
def Repository.update (env : Env) (meta : Meta) (db : DB) (id : Nat)
    (data : List (String × Val)) : Option PyExc × DB × Option Instance :=
  match Repository.read meta db id with
  | .error e => (some e, db, Option.none)
  | .ok inst0 =>
    let editable_fields := inst0.meta.editableFields
    match data.foldlM (updateStep db editable_fields) (inst0, []) with
    | .error e => (some e, db, Option.none)
    | .ok st =>
      match Repository._save env st.1 st.2 db with
      | (Option.none, db1) => (Option.none, db1, some st.1)
      | (some e, db1) => (some e, db1, Option.none)

/-- `instance.delete()` wrapped in the `try/except` of `Repository.delete`
(`repositories.py` lines 299-303): a failing deletion surfaces as
`InternalServerError(errors=[{"field": None, "message": str(e)}])`. -/
def tryDeleteBody (env : Env) (id : Nat) (db : DB) : Option PyExc × DB :=
  match env.deleteError with
  | some s =>
      (some (.internalServerError [(Option.none, (PyExc.uncaughtName s).pyStr)]),
        db)
  | Option.none =>
      (Option.none, { db with objects := db.objects.filter (fun o => !(o.id == id)) })

/-- `Repository.delete` (`repositories.py` lines 286-303): read (raising
`NotFound` when absent), then delete inside `transaction.atomic()`. -/
def Repository.delete (env : Env) (meta : Meta) (db : DB) (id : Nat) :
    Option PyExc × DB :=
  match Repository.read meta db id with
  | .error e => (some e, db)
  | .ok _ => atomic db (tryDeleteBody env id)

/-- `Repository.filter` (`repositories.py` lines 314-324):
`self.model.objects.filter(**kwargs)`, embedded as exact-match filtering on
attributes. -/
def Repository.filter (db : DB) (kwargs : List (String × Val)) :
    List Instance :=
  db.objects.filter (fun o =>
    kwargs.all (fun kv =>
      ((o.attrs.find? (fun a => a.1 == kv.1)).map (fun a => a.2)).any
        (fun v => Val.beq v kv.2)))

/-- `Repository.list_all` (`repositories.py` lines 305-312):
`self.model.objects.all()`. -/
def Repository.list_all (db : DB) : List Instance :=
  db.objects

end DjangoInscode

namespace DjangoInscode

/-- `ServiceCreateMixin.create` (`mixins.py` lines 26-38):
`return self.get_model_repository().create(**data)` — the repository here is
the triple `(env, meta, db)`; `context` is accepted and never used. -/
def ServiceCreateMixin.create (env : Env) (meta : Meta) (db : DB)
    (data : List (String × Val)) (context : γ) :
    Option PyExc × DB × Option Instance :=
  Repository.create env meta db data

/-- `ServiceReadMixin.read` (`mixins.py` lines 50-62):
`return self.get_model_repository().read(id)`. -/
def ServiceReadMixin.read (meta : Meta) (db : DB) (id : Nat) (context : γ) :
    Except PyExc Instance :=
  Repository.read meta db id

/-- `ServiceReadMixin.list` (`mixins.py` lines 64-76):
`return self.get_model_repository().filter(**kwargs)`. -/
def ServiceReadMixin.list (db : DB) (context : γ)
    (kwargs : List (String × Val)) : List Instance :=
  Repository.filter db kwargs

/-- `ServiceUpdateMixin.update` (`mixins.py` lines 87-100):
`return self.get_model_repository().update(id, **data)`. -/
def ServiceUpdateMixin.update (env : Env) (meta : Meta) (db : DB) (id : Nat)
    (data : List (String × Val)) (context : γ) :
    Option PyExc × DB × Option Instance :=
  Repository.update env meta db id data

/-- `ServiceDeleteMixin.delete` (`mixins.py` lines 111-123):
`return self.get_model_repository().delete(id)`. -/
def ServiceDeleteMixin.delete (env : Env) (meta : Meta) (db : DB) (id : Nat)
    (context : γ) : Option PyExc × DB :=
  Repository.delete env meta db id

/-- A permission instance as produced by a class in `permissions_classes`.

Modelled from the spec: the `permissions` module (`BasePermission` with
`has_permission`, `has_object_permission` and a `message` attribute) is not
among the sources here; `GenericView.check_permissions` (`views.py` lines
103-119) calls exactly these two boolean methods and reads `message`. -/
structure Permission (Req V Obj : Type) where
  hasPermission : Req → V → Bool
  hasObjectPermission : Req → V → Obj → Bool
  message : String

/-- `GenericView.get_permissions` (`views.py` lines 88-97): the empty list
when `permissions_classes` is `None` or empty, otherwise one instance per
configured class. -/
def get_permissions (classes : Option (List (Permission Req V Obj))) :
    List (Permission Req V Obj) :=
  match classes with
  | Option.none => []
  | some cs => if cs.isEmpty then [] else cs

/-- `GenericView.check_permissions` (`views.py` lines 103-119): walk the
permissions in order; raise `Forbidden(message=permission.message)` — here,
return `some message` — at the first permission whose `has_permission` is
false, or, when `obj` is truthy, whose `has_object_permission` is false. -/
def check_permissions (perms : List (Permission Req V Obj)) (req : Req)
    (view : V) (obj : Option Obj) : Option String :=
  match perms with
  | [] => Option.none
  | p :: rest =>
    if p.hasPermission req view = false then some p.message
    else
      match obj with
      | some o =>
        if p.hasObjectPermission req view o = false then some p.message
        else check_permissions rest req view obj
      | Option.none => check_permissions rest req view obj

/-- `GenericView.dispatch` (`views.py` lines 130-154): check permissions
without an object, then try `get_object` and re-check with it (swallowing
only `BadRequest` from that block), and only then hand the request to the
method handler (`super().dispatch`). -/
def dispatch (perms : List (Permission Req V Obj)) (req : Req) (view : V)
    (getObject : Except PyExc (Option Obj)) (handler : Req → Resp) :
    Except PyExc Resp :=
  match check_permissions perms req view Option.none with
  | some m => .error (.forbidden m)
  | Option.none =>
    match getObject with
    | .error (.badRequest _ _) => .ok (handler req)
    | .error e => .error e
    | .ok obj =>
      match check_permissions perms req view obj with
      | some m => .error (.forbidden m)
      | Option.none => .ok (handler req)

/-- A permission granting access for this request/object combination: its
`has_permission` is true, and so is `has_object_permission` whenever an
object is present. -/
def permissionGrants (req : Req) (view : V) (obj : Option Obj)
    (p : Permission Req V Obj) : Prop :=
  p.hasPermission req view = true ∧
    ∀ o, obj = some o → p.hasObjectPermission req view o = true

/-- A permission denying access: `has_permission` is false, or an object is
present and `has_object_permission` is false. -/
def permissionDenies (req : Req) (view : V) (obj : Option Obj)
    (p : Permission Req V Obj) : Prop :=
  p.hasPermission req view = false ∨
    ∃ o, obj = some o ∧ p.hasObjectPermission req view o = false

end DjangoInscode

namespace DjangoInscode

/-- C5. Every service mixin operation is pure delegation to the repository:
`create` forwards to `Repository.create`, `read` to `Repository.read`,
`list` to `Repository.filter`, `update` to `Repository.update`, `delete`
to `Repository.delete`; and for every pair of context values the result is
identical — the `context` argument never influences the outcome. -/
theorem service_mixins_delegate (env : Env) (meta : Meta) (db : DB)
    (id : Nat) (data kwargs : List (String × Val)) (c1 c2 : γ) :
    (ServiceCreateMixin.create env meta db data c1
        = ServiceCreateMixin.create env meta db data c2 ∧
      ServiceCreateMixin.create env meta db data c1
        = Repository.create env meta db data) ∧
    (ServiceReadMixin.read meta db id c1 = ServiceReadMixin.read meta db id c2 ∧
      ServiceReadMixin.read meta db id c1 = Repository.read meta db id) ∧
    (ServiceReadMixin.list db c1 kwargs = ServiceReadMixin.list db c2 kwargs ∧
      ServiceReadMixin.list db c1 kwargs = Repository.filter db kwargs) ∧
    (ServiceUpdateMixin.update env meta db id data c1
        = ServiceUpdateMixin.update env meta db id data c2 ∧
      ServiceUpdateMixin.update env meta db id data c1
        = Repository.update env meta db id data) ∧
    (ServiceDeleteMixin.delete env meta db id c1
        = ServiceDeleteMixin.delete env meta db id c2 ∧
      ServiceDeleteMixin.delete env meta db id c1
        = Repository.delete env meta db id) :=
  ⟨⟨rfl, rfl⟩, ⟨rfl, rfl⟩, ⟨rfl, rfl⟩, ⟨rfl, rfl⟩, ⟨rfl, rfl⟩⟩

/-- C6. `check_permissions` returns normally when `permissions_classes` is
`None` or empty; it yields the failing permission's message at the first
permission that denies (by `has_permission`, or by `has_object_permission`
when an object is present); it returns normally when every permission
grants; and when the object-less check fails with message `m`, `dispatch`
answers `Forbidden m` whatever `get_object` and the request handler would
have done — the handler never runs. -/
theorem check_permissions_spec {Req V Obj Resp : Type} (req : Req) (view : V) :
    (∀ obj : Option Obj,
       check_permissions (get_permissions Option.none) req view obj
         = Option.none) ∧
    (∀ obj : Option Obj,
       check_permissions (get_permissions (some ([] : List (Permission Req V Obj))))
           req view obj = Option.none) ∧
    (∀ (obj : Option Obj) (pre : List (Permission Req V Obj)) p post,
       (∀ q ∈ pre, permissionGrants req view obj q) →
       permissionDenies req view obj p →
       check_permissions (pre ++ p :: post) req view obj = some p.message) ∧
    (∀ (obj : Option Obj) (perms : List (Permission Req V Obj)),
       (∀ p ∈ perms, permissionGrants req view obj p) →
       check_permissions perms req view obj = Option.none) ∧
    (∀ (perms : List (Permission Req V Obj)) m
       (getObject : Except PyExc (Option Obj)) (handler : Req → Resp),
       check_permissions perms req view Option.none = some m →
       dispatch perms req view getObject handler = .error (.forbidden m)) := by
  have hgrant : ∀ (obj : Option Obj) (perms : List (Permission Req V Obj)),
      (∀ p ∈ perms, permissionGrants req view obj p) →
      check_permissions perms req view obj = Option.none := by
    intro obj perms
    induction perms with
    | nil => intro _; rfl
    | cons p rest ih =>
      intro h
      have hp := h p (List.mem_cons_self _ _)
      obtain ⟨hP, hO⟩ := hp
      unfold check_permissions
      rw [if_neg (by simp [hP])]
      cases obj with
      | none => exact ih (fun q hq => h q (List.mem_cons_of_mem _ hq))
      | some o =>
        dsimp only
        rw [if_neg (by simp [hO o rfl])]
        exact ih (fun q hq => h q (List.mem_cons_of_mem _ hq))
  refine ⟨fun _ => rfl, fun _ => rfl, ?_, hgrant, ?_⟩
  · intro obj pre p post hpre hdeny
    induction pre with
    | nil =>
      simp only [List.nil_append]
      unfold check_permissions
      rcases hdeny with hP | ⟨o, ho, hO⟩
      · rw [if_pos (by simp [hP])]
      · by_cases hP : p.hasPermission req view = false
        · rw [if_pos (by simp [hP])]
        · rw [if_neg hP]
          subst ho
          dsimp only
          rw [if_pos (by simp [hO])]
    | cons q rest ih =>
      have hq := hpre q (List.mem_cons_self _ _)
      obtain ⟨hP, hO⟩ := hq
      simp only [List.cons_append]
      unfold check_permissions
      rw [if_neg (by simp [hP])]
      have hrest := ih (fun x hx => hpre x (List.mem_cons_of_mem _ hx))
      cases obj with
      | none => exact hrest
      | some o =>
        dsimp only
        rw [if_neg (by simp [hO o rfl])]
        exact hrest
  · intro perms m getObject handler h
    unfold dispatch
    rw [h]

/-- C6 witness: with one granting then one denying permission, the check
stops at the denier and `dispatch` answers `Forbidden` with its message. -/
theorem check_permissions_spec_witness :
    check_permissions
        ([⟨fun _ _ => true, fun _ _ _ => true, "ok"⟩]
          ++ (⟨fun _ _ => false, fun _ _ _ => true, "denied"⟩ :
                Permission Unit Unit Unit) :: [])
        () () Option.none
      = some (Permission.message
          (⟨fun _ _ => false, fun _ _ _ => true, "denied"⟩ :
            Permission Unit Unit Unit)) :=
  (@check_permissions_spec Unit Unit Unit Unit () ()).2.2.1 Option.none
    [⟨fun _ _ => true, fun _ _ _ => true, "ok"⟩]
    ⟨fun _ _ => false, fun _ _ _ => true, "denied"⟩ []
    (by
      intro q hq
      simp only [List.mem_singleton] at hq
      subst hq
      exact ⟨rfl, fun o ho => by cases ho⟩)
    (Or.inl rfl)

end DjangoInscode

namespace DjangoInscode

theorem collectM2M_ok (meta : Meta) (data : List (String × Val))
    (h : ∀ kv ∈ data, (meta.get_field kv.1).isSome) :
    collectM2M meta data = .ok (data.filter (fun kv => meta.isM2MKey kv.1)) := by
  induction data with
  | nil => rfl
  | cons kv rest ih =>
    obtain ⟨f, hf⟩ := Option.isSome_iff_exists.mp (h kv (List.mem_cons_self _ _))
    have hrest := ih (fun x hx => h x (List.mem_cons_of_mem _ hx))
    obtain ⟨k, v⟩ := kv
    unfold collectM2M
    rw [hf, hrest]
    have hkey : meta.isM2MKey k = f.isM2M := by
      unfold Meta.isM2MKey
      rw [hf]
    cases hM : f.isM2M with
    | true => simp [List.filter_cons, hkey, hM]
    | false => simp [List.filter_cons, hkey, hM]

theorem collectM2M_error (meta : Meta) (pre : List (String × Val))
    (k : String) (v : Val) (post : List (String × Val))
    (hpre : ∀ kv ∈ pre, (meta.get_field kv.1).isSome)
    (hk : meta.get_field k = Option.none) :
    collectM2M meta (pre ++ (k, v) :: post) =
      .error (.badRequest (some "Campo inexistente.")
        [(some k, "Este campo não existe no modelo.")]) := by
  induction pre with
  | nil =>
    simp only [List.nil_append]
    unfold collectM2M
    rw [hk]
  | cons kv rest ih =>
    obtain ⟨f, hf⟩ := Option.isSome_iff_exists.mp (hpre kv (List.mem_cons_self _ _))
    have hrest := ih (fun x hx => hpre x (List.mem_cons_of_mem _ hx))
    obtain ⟨k1, v1⟩ := kv
    simp only [List.cons_append]
    unfold collectM2M
    rw [hf, hrest]

theorem collectM2M_ok_inv (meta : Meta) (data : List (String × Val))
    (m2m : List (String × Val)) (h : collectM2M meta data = .ok m2m) :
    (∀ kv ∈ data, (meta.get_field kv.1).isSome) ∧
      m2m = data.filter (fun kv => meta.isM2MKey kv.1) := by
  induction data generalizing m2m with
  | nil =>
    refine ⟨by simp, ?_⟩
    unfold collectM2M at h
    cases h
    rfl
  | cons kv rest ih =>
    obtain ⟨k, v⟩ := kv
    unfold collectM2M at h
    cases hf : meta.get_field k with
    | none => rw [hf] at h; cases h
    | some f =>
      rw [hf] at h
      cases hrec : collectM2M meta rest with
      | error e => rw [hrec] at h; cases h
      | ok tail =>
        rw [hrec] at h
        obtain ⟨hall, htail⟩ := ih tail hrec
        have hm2m : m2m = if f.isM2M then (k, v) :: tail else tail := by
          cases h; rfl
        refine ⟨?_, ?_⟩
        · intro kv hkv
          rcases List.mem_cons.mp hkv with hh | ht
          · subst hh; simp [hf]
          · exact hall kv ht
        · have hkey : meta.isM2MKey k = f.isM2M := by
            unfold Meta.isM2MKey
            rw [hf]
          rw [hm2m, htail]
          cases hM : f.isM2M with
          | true => simp [List.filter_cons, hkey, hM]
          | false => simp [List.filter_cons, hkey, hM]

theorem m2mSetStep_cases (inst : Instance) (db : DB) (lastRM : Option String)
    (fname : String) (value : Val) :
    (∃ db1 rm1, m2mSetStep inst db lastRM fname value = (Option.none, db1, rm1) ∧
       db1.trace = db.trace ++ [DBEvent.setEv inst.id fname]) ∨
    (∃ e rm1, m2mSetStep inst db lastRM fname value = (some e, db, rm1) ∧
       ∀ v, e ≠ .validationError v) := by
  cases hf : inst.meta.get_field fname with
  | none =>
    right
    refine ⟨PyExc.badRequest (some "Campo inexistente.")
        [(some fname, "Este campo não existe no modelo.")], lastRM, ?_, ?_⟩
    · unfold m2mSetStep
      rw [hf]
    · intro v h
      cases h
  | some f =>
    cases value with
    | listy elems =>
      by_cases hall : elems.all Val.isIdLike
      · cases hrm : (if f.isM2M then f.relatedName else lastRM) with
        | none =>
          right
          refine ⟨PyExc.uncaughtName "UnboundLocalError", Option.none, ?_, ?_⟩
          · unfold m2mSetStep
            rw [hf]
            dsimp only
            rw [if_pos hall, hrm]
          · intro v h
            cases h
        | some relatedModel =>
          by_cases hlen :
              (((lookupRelated db relatedModel).filter
                (fun pk => (elems.map Val.idStr).contains pk)).length
                == elems.length) = true
          · left
            refine ⟨recordSet db inst.id fname
                ((lookupRelated db relatedModel).filter
                  (fun pk => (elems.map Val.idStr).contains pk)),
              some relatedModel, ?_, ?_⟩
            · unfold m2mSetStep
              rw [hf]
              dsimp only
              rw [if_pos hall, hrm]
              dsimp only
              rw [if_pos hlen]
            · simp [recordSet]
          · right
            refine ⟨PyExc.badRequest
                (some "Alguns objetos relacionados não foram encontrados.")
                [(some fname, "IDs inválidos: " ++ String.intercalate ", "
                  (((elems.map Val.idStr).filter (fun i =>
                    !(((lookupRelated db relatedModel).filter
                      (fun pk => (elems.map Val.idStr).contains pk)).contains
                        i))).dedup) ++ ".")],
              some relatedModel, ?_, ?_⟩
            · unfold m2mSetStep
              rw [hf]
              dsimp only
              rw [if_pos hall, hrm]
              dsimp only
              rw [if_neg hlen]
            · intro v h
              cases h
      · left
        refine ⟨recordSet db inst.id fname (elems.map Val.idStr),
          if f.isM2M then f.relatedName else lastRM, ?_, ?_⟩
        · unfold m2mSetStep
          rw [hf]
          dsimp only
          rw [if_neg hall]
        · simp [recordSet]
    | none =>
      right
      refine ⟨PyExc.badRequest (some "Valor inválido para o campo ManyToMany.")
          [(some fname, "Esperada uma lista de IDs ou instâncias.")],
        if f.isM2M then f.relatedName else lastRM, ?_, ?_⟩
      · unfold m2mSetStep
        rw [hf]
      · intro v h
        cases h
    | pkInt n =>
      right
      refine ⟨PyExc.badRequest (some "Valor inválido para o campo ManyToMany.")
          [(some fname, "Esperada uma lista de IDs ou instâncias.")],
        if f.isM2M then f.relatedName else lastRM, ?_, ?_⟩
      · unfold m2mSetStep
        rw [hf]
      · intro v h
        cases h
    | str s =>
      right
      refine ⟨PyExc.badRequest (some "Valor inválido para o campo ManyToMany.")
          [(some fname, "Esperada uma lista de IDs ou instâncias.")],
        if f.isM2M then f.relatedName else lastRM, ?_, ?_⟩
      · unfold m2mSetStep
        rw [hf]
      · intro v h
        cases h
    | inst m pk =>
      right
      refine ⟨PyExc.badRequest (some "Valor inválido para o campo ManyToMany.")
          [(some fname, "Esperada uma lista de IDs ou instâncias.")],
        if f.isM2M then f.relatedName else lastRM, ?_, ?_⟩
      · unfold m2mSetStep
        rw [hf]
      · intro v h
        cases h

theorem runM2M_cases (inst : Instance) (m2m : List (String × Val)) :
    ∀ (db : DB) (lastRM : Option String),
      (∃ db1, runM2M inst db lastRM m2m = (Option.none, db1) ∧
         db1.trace = db.trace ++ m2m.map (fun kv => DBEvent.setEv inst.id kv.1)) ∨
      (∃ e db1, runM2M inst db lastRM m2m = (some e, db1) ∧
         ∀ v, e ≠ .validationError v) := by
  induction m2m with
  | nil =>
    intro db lastRM
    left
    exact ⟨db, rfl, by simp⟩
  | cons kv rest ih =>
    intro db lastRM
    obtain ⟨fname, value⟩ := kv
    rcases m2mSetStep_cases inst db lastRM fname value with
      ⟨db1, rm1, hstep, htrace⟩ | ⟨e, rm1, hstep, hnv⟩
    · rcases ih db1 rm1 with ⟨db2, hrun, htrace2⟩ | ⟨e, db2, hrun, hnv⟩
      · left
        refine ⟨db2, ?_, ?_⟩
        · unfold runM2M
          rw [hstep]
          dsimp only
          exact hrun
        · rw [htrace2, htrace]
          simp
      · right
        refine ⟨e, db2, ?_, hnv⟩
        unfold runM2M
        rw [hstep]
        dsimp only
        exact hrun
    · right
      refine ⟨e, db, ?_, hnv⟩
      unfold runM2M
      rw [hstep]

theorem save_ok_trace (env : Env) (inst : Instance) (m2m : List (String × Val))
    (db db1 : DB) (h : Repository._save env inst m2m db = (Option.none, db1)) :
    db1.trace = db.trace ++ [DBEvent.fullCleanEv inst.id, DBEvent.saveEv inst.id]
      ++ m2m.map (fun kv => DBEvent.setEv inst.id kv.1) := by
  unfold Repository._save atomic trySaveBody saveBody at h
  cases hfc : env.fullClean inst with
  | some v => rw [hfc] at h; cases h
  | none =>
    rw [hfc] at h
    dsimp only at h
    rcases runM2M_cases inst m2m
        (saveInstanceRow { db with trace := db.trace ++ [DBEvent.fullCleanEv inst.id] } inst)
        Option.none with
      ⟨db2, hrun, htrace⟩ | ⟨e, db2, hrun, hnv⟩
    · rw [hrun] at h
      dsimp only at h
      cases h
      rw [htrace]
      simp [saveInstanceRow]
    · rw [hrun] at h
      cases he : e with
      | validationError v => exact absurd he (hnv v)
      | badRequest m errs => subst he; dsimp only at h; cases h
      | internalServerError errs => subst he; dsimp only at h; cases h
      | notFound m => subst he; dsimp only at h; cases h
      | forbidden m => subst he; dsimp only at h; cases h
      | uncaughtName t => subst he; dsimp only at h; cases h

end DjangoInscode

namespace DjangoInscode

/-- C3. `Repository.create` inspects the model field of every data key:
at the first key with no model field it raises `BadRequest` with the data
untouched — no instance constructed or saved (the returned state is the
original `db`); when every key is known, it removes exactly the keys whose
field is `ManyToManyField`/`ManyToManyRel`, passes all remaining keys to the
model constructor, and hands the instance plus many-to-many data to `_save`;
and on success the `relation.set` calls happen only after the validate and
save events, one per many-to-many key in order. -/
theorem repository_create_spec (env : Env) (meta : Meta) (db : DB)
    (data : List (String × Val)) :
    (∀ pre k v post, data = pre ++ (k, v) :: post →
       (∀ kv ∈ pre, (meta.get_field kv.1).isSome) →
       meta.get_field k = Option.none →
       Repository.create env meta db data =
         (some (.badRequest (some "Campo inexistente.")
            [(some k, "Este campo não existe no modelo.")]), db, Option.none)) ∧
    ((∀ kv ∈ data, (meta.get_field kv.1).isSome) →
       Repository.create env meta db data =
         (match Repository._save env
             ⟨db.nextId, meta, data.filter (fun kv => !(meta.isM2MKey kv.1))⟩
             (data.filter (fun kv => meta.isM2MKey kv.1)) db with
          | (Option.none, db1) =>
              (Option.none, db1,
                some ⟨db.nextId, meta,
                  data.filter (fun kv => !(meta.isM2MKey kv.1))⟩)
          | (some e, db1) => (some e, db1, Option.none))) ∧
    (∀ db1 inst, Repository.create env meta db data = (Option.none, db1, some inst) →
       inst.attrs = data.filter (fun kv => !(meta.isM2MKey kv.1)) ∧
       db1.trace = db.trace
         ++ [DBEvent.fullCleanEv inst.id, DBEvent.saveEv inst.id]
         ++ (data.filter (fun kv => meta.isM2MKey kv.1)).map
             (fun kv => DBEvent.setEv inst.id kv.1)) := by
  refine ⟨?_, ?_, ?_⟩
  · intro pre k v post hdata hpre hk
    subst hdata
    unfold Repository.create
    rw [collectM2M_error meta pre k v post hpre hk]
  · intro hall
    unfold Repository.create
    rw [collectM2M_ok meta data hall]
  · intro db1 inst h
    unfold Repository.create at h
    cases hcol : collectM2M meta data with
    | error e =>
      rw [hcol] at h
      cases h
    | ok m2m =>
      rw [hcol] at h
      dsimp only at h
      obtain ⟨hall, hm2m⟩ := collectM2M_ok_inv meta data m2m hcol
      cases hsave : Repository._save env
          ⟨db.nextId, meta, data.filter (fun kv => !(meta.isM2MKey kv.1))⟩
          m2m db with
      | mk o db2 =>
        rw [hsave] at h
        cases o with
        | none =>
          dsimp only at h
          obtain ⟨he, hdb, hinst⟩ :
              (Option.none : Option PyExc) = Option.none ∧ db2 = db1 ∧
                some (⟨db.nextId, meta,
                  data.filter (fun kv => !(meta.isM2MKey kv.1))⟩ : Instance)
                  = some inst := by
            refine ⟨rfl, ?_, ?_⟩
            · exact (congrArg (fun t => t.2.1) h)
            · exact (congrArg (fun t => t.2.2) h)
          have hinst2 : inst = ⟨db.nextId, meta,
              data.filter (fun kv => !(meta.isM2MKey kv.1))⟩ :=
            (Option.some.injEq _ _ ▸ hinst).symm ▸ rfl
          subst hdb
          rw [hm2m] at hsave
          constructor
          · rw [hinst2]
          · have htr := save_ok_trace env _ _ db db2 hsave
            rw [htr, hinst2]
        | some e =>
          dsimp only at h
          cases h

/-- C4. `_save` runs `full_clean`, `save` and the many-to-many assignments
inside one `transaction.atomic` block: when `full_clean` raises
`ValidationError v` the caller sees `BadRequest` carrying the formatted
validation errors; every error leaves the database exactly as it was
(rollback); when validation passes, any error coming out of `_save` is an
`InternalServerError`; and `Repository.delete` wraps the deletion in
`transaction.atomic` and surfaces a failing deletion as
`InternalServerError` with the state unchanged. -/
theorem repository_save_transaction (env : Env) (inst : Instance)
    (m2m : List (String × Val)) (db : DB) (meta : Meta) (id : Nat) :
    (∀ v, env.fullClean inst = some v →
       Repository._save env inst m2m db =
         (some (.badRequest Option.none (format_validation_errors env.fmt v)),
           db)) ∧
    (∀ e db1, Repository._save env inst m2m db = (some e, db1) → db1 = db) ∧
    (env.fullClean inst = Option.none →
       ∀ e db1, Repository._save env inst m2m db = (some e, db1) →
         ∃ errs, e = .internalServerError errs) ∧
    (∀ inst0, Repository.read meta db id = .ok inst0 →
       ∀ s, env.deleteError = some s →
         Repository.delete env meta db id =
           (some (.internalServerError [(Option.none, s)]), db)) := by
  refine ⟨?_, ?_, ?_, ?_⟩
  · intro v hv
    unfold Repository._save atomic trySaveBody saveBody
    rw [hv]
  · intro e db1 h
    unfold Repository._save atomic at h
    cases htb : trySaveBody env inst m2m db with
    | mk o db2 =>
      rw [htb] at h
      cases o with
      | none =>
        dsimp only at h
        cases h
      | some e2 =>
        dsimp only at h
        injection h with h1 h2
        exact h2.symm
  · intro hfc e db1 h
    unfold Repository._save atomic trySaveBody saveBody at h
    rw [hfc] at h
    dsimp only at h
    rcases runM2M_cases inst m2m
        (saveInstanceRow
          { db with trace := db.trace ++ [DBEvent.fullCleanEv inst.id] } inst)
        Option.none with
      ⟨db2, hrun, _⟩ | ⟨e2, db2, hrun, hnv⟩
    · rw [hrun] at h
      dsimp only at h
      cases h
    · rw [hrun] at h
      cases he2 : e2 with
      | validationError v => exact absurd he2 (hnv v)
      | badRequest m errs =>
        subst he2
        dsimp only at h
        injection h with h1 h2
        injection h1 with h1x
        exact ⟨_, h1x.symm⟩
      | internalServerError errs =>
        subst he2
        dsimp only at h
        injection h with h1 h2
        injection h1 with h1x
        exact ⟨_, h1x.symm⟩
      | notFound m =>
        subst he2
        dsimp only at h
        injection h with h1 h2
        injection h1 with h1x
        exact ⟨_, h1x.symm⟩
      | forbidden m =>
        subst he2
        dsimp only at h
        injection h with h1 h2
        injection h1 with h1x
        exact ⟨_, h1x.symm⟩
      | uncaughtName t =>
        subst he2
        dsimp only at h
        injection h with h1 h2
        injection h1 with h1x
        exact ⟨_, h1x.symm⟩
  · intro inst0 hread s hdel
    unfold Repository.delete
    rw [hread]
    dsimp only
    unfold atomic tryDeleteBody
    rw [hdel]
    dsimp only
    rfl

end DjangoInscode

namespace DjangoInscode

theorem foldlM_singleton {ε α β : Type _} (f : β → α → Except ε β) (init : β)
    (a : α) : List.foldlM f init [a] = f init a := by
  simp [List.foldlM]

theorem updateStep_key (db : DB) (ef : List String)
    (st : Instance × List (String × Val)) (k1 k2 : String) (v : Val)
    (h : normalizeKey k1 = normalizeKey k2) :
    updateStep db ef st (k1, v) = updateStep db ef st (k2, v) := by
  unfold updateStep
  dsimp only
  rw [h]

theorem normalizeKey_of_not_id (k : String) (h : pyEndsWith k "_id" = false) :
    normalizeKey k = k := by
  unfold normalizeKey
  rw [if_neg (by simp [h])]

theorem updateStep_fk_found (db : DB) (ef : List String) (inst : Instance)
    (m2m : List (String × Val)) (fname : String) (f : Field) (rm pk : String)
    (hn : pyEndsWith fname "_id" = false)
    (hf : inst.meta.get_field fname = some f)
    (hk : f.kind = .foreignKey rm)
    (he : ef.contains fname = true)
    (hpk : (lookupRelated db rm).contains pk = true) :
    updateStep db ef (inst, m2m) (fname, Val.str pk)
      = .ok (inst.setattr fname (.inst rm pk), m2m) := by
  have hM : f.isM2M = false := by
    unfold Field.isM2M
    rw [hk]
  unfold updateStep
  dsimp only
  rw [normalizeKey_of_not_id fname hn, hf]
  dsimp only
  rw [hM]
  simp only [Bool.false_eq_true, if_false]
  rw [if_pos he, hk]
  dsimp only
  simp only [Val.idStr]
  rw [if_pos hpk]

theorem updateStep_fk_missing (db : DB) (ef : List String) (inst : Instance)
    (m2m : List (String × Val)) (fname : String) (f : Field) (rm pk : String)
    (hn : pyEndsWith fname "_id" = false)
    (hf : inst.meta.get_field fname = some f)
    (hk : f.kind = .foreignKey rm)
    (he : ef.contains fname = true)
    (hpk : (lookupRelated db rm).contains pk = false) :
    updateStep db ef (inst, m2m) (fname, Val.str pk)
      = .error (.badRequest
          (some ("Objeto relacionado não encontrado para o campo " ++ fname))
          [(some fname, "Referência inválida")]) := by
  have hM : f.isM2M = false := by
    unfold Field.isM2M
    rw [hk]
  unfold updateStep
  dsimp only
  rw [normalizeKey_of_not_id fname hn, hf]
  dsimp only
  rw [hM]
  simp only [Bool.false_eq_true, if_false]
  rw [if_pos he, hk]
  dsimp only
  simp only [Val.idStr]
  rw [if_neg (by rw [hpk]; simp)]

theorem updateStep_skip (db : DB) (ef : List String) (inst : Instance)
    (m2m : List (String × Val)) (fname : String) (f : Field) (v : Val)
    (hn : pyEndsWith fname "_id" = false)
    (hf : inst.meta.get_field fname = some f)
    (hM : f.isM2M = false)
    (he : ef.contains fname = false) :
    updateStep db ef (inst, m2m) (fname, v) = .ok (inst, m2m) := by
  unfold updateStep
  dsimp only
  rw [normalizeKey_of_not_id fname hn, hf]
  dsimp only
  rw [hM]
  simp only [Bool.false_eq_true, if_false]
  rw [if_neg (by rw [he]; simp)]

end DjangoInscode

namespace DjangoInscode

/-- C9. `Repository.update` normalises every data key ending in `_id` to
the bare field name (processing `k` and `k[:-3]` identically); for an
editable many-to-one field given a primary-key value it resolves the key to
the related instance when it exists and raises `BadRequest` when the
referenced object does not exist; an existing non-many-to-many field that
is not listed among the editable fields is silently skipped — updating with
only that key behaves exactly like updating with no data, changing nothing
and raising nothing; and `editable_fields` holds exactly the names of the
fields whose `editable` attribute (defaulting to true) is true. -/
theorem repository_update_spec (env : Env) (meta : Meta) (db : DB) (id : Nat) :
    (∀ (k : String) (v : Val), pyEndsWith k "_id" = true →
       pyEndsWith (k.dropRight 3) "_id" = false →
       Repository.update env meta db id [(k, v)] =
         Repository.update env meta db id [(k.dropRight 3, v)]) ∧
    (∀ inst0 fname f rm pk, Repository.read meta db id = .ok inst0 →
       pyEndsWith fname "_id" = false →
       inst0.meta.get_field fname = some f →
       f.kind = .foreignKey rm →
       inst0.meta.editableFields.contains fname = true →
       (lookupRelated db rm).contains pk = true →
       Repository.update env meta db id [(fname, Val.str pk)] =
         (match Repository._save env (inst0.setattr fname (.inst rm pk)) [] db with
          | (Option.none, db1) =>
              (Option.none, db1, some (inst0.setattr fname (.inst rm pk)))
          | (some e, db1) => (some e, db1, Option.none))) ∧
    (∀ inst0 fname f rm pk, Repository.read meta db id = .ok inst0 →
       pyEndsWith fname "_id" = false →
       inst0.meta.get_field fname = some f →
       f.kind = .foreignKey rm →
       inst0.meta.editableFields.contains fname = true →
       (lookupRelated db rm).contains pk = false →
       Repository.update env meta db id [(fname, Val.str pk)] =
         (some (.badRequest
            (some ("Objeto relacionado não encontrado para o campo " ++ fname))
            [(some fname, "Referência inválida")]), db, Option.none)) ∧
    (∀ inst0 fname f v, Repository.read meta db id = .ok inst0 →
       pyEndsWith fname "_id" = false →
       inst0.meta.get_field fname = some f →
       f.isM2M = false →
       inst0.meta.editableFields.contains fname = false →
       Repository.update env meta db id [(fname, v)] =
         Repository.update env meta db id []) ∧
    (∀ fname, meta.editableFields.contains fname = true ↔
       ∃ f ∈ meta.fields, f.name = fname ∧ f.editable.getD true = true) := by
  refine ⟨?_, ?_, ?_, ?_, ?_⟩
  · intro k v h1 h2
    have hkey : normalizeKey k = normalizeKey (k.dropRight 3) := by
      unfold normalizeKey
      rw [if_pos h1, if_neg (by rw [h2]; simp)]
    unfold Repository.update
    cases hread : Repository.read meta db id with
    | error e => rfl
    | ok inst0 =>
      dsimp only
      rw [foldlM_singleton, foldlM_singleton,
        updateStep_key db inst0.meta.editableFields (inst0, []) k
          (k.dropRight 3) v hkey]
  · intro inst0 fname f rm pk hread hn hf hk he hpk
    unfold Repository.update
    rw [hread]
    dsimp only
    rw [foldlM_singleton,
      updateStep_fk_found db inst0.meta.editableFields inst0 [] fname f rm pk
        hn hf hk he hpk]
  · intro inst0 fname f rm pk hread hn hf hk he hpk
    unfold Repository.update
    rw [hread]
    dsimp only
    rw [foldlM_singleton,
      updateStep_fk_missing db inst0.meta.editableFields inst0 [] fname f rm pk
        hn hf hk he hpk]
  · intro inst0 fname f v hread hn hf hM he
    unfold Repository.update
    rw [hread]
    dsimp only
    rw [foldlM_singleton,
      updateStep_skip db inst0.meta.editableFields inst0 [] fname f v
        hn hf hM he]
    rfl
  · intro fname
    unfold Meta.editableFields
    constructor
    · intro h
      have hmem : fname ∈ (meta.fields.filter
          (fun f => f.editable.getD true)).map (fun f => f.name) := by
        simpa using h
      obtain ⟨f, hfmem, hfname⟩ := List.mem_map.mp hmem
      obtain ⟨hfl, hed⟩ := List.mem_filter.mp hfmem
      exact ⟨f, hfl, hfname, hed⟩
    · intro ⟨f, hfl, hfname, hed⟩
      have hmem : fname ∈ (meta.fields.filter
          (fun f => f.editable.getD true)).map (fun f => f.name) :=
        List.mem_map.mpr ⟨f, List.mem_filter.mpr ⟨hfl, hed⟩, hfname⟩
      simpa using hmem

end DjangoInscode

namespace DjangoInscode

/-- A small concrete model for witnesses: a `Book` with a plain editable
`title`, a plain non-editable `secret`, a many-to-one `author` and a
many-to-many `tags`. -/
def toyMeta : Meta :=
  ⟨"Book",
   [⟨"title", .plain, some true⟩,
    ⟨"secret", .plain, some false⟩,
    ⟨"author", .foreignKey "Author", some true⟩,
    ⟨"tags", .manyToMany "Tag", some true⟩]⟩

/-- A stored `Book` row. -/
def toyInst : Instance := ⟨1, toyMeta, [("title", Val.str "t")]⟩

/-- A database holding that row plus related `Tag` and `Author` tables. -/
def toyDB : DB := ⟨2, [toyInst], [("Tag", ["1", "2"]), ("Author", ["7"])], [], []⟩

/-- A framework environment where validation and deletion succeed. -/
def toyEnvOk : Env := ⟨fun m _ => m, fun _ => Option.none, Option.none⟩

/-- A concrete `ValidationError` payload. -/
def toyVErr : VErr := .list [⟨"invalid", []⟩]

/-- A framework environment where `full_clean` raises `toyVErr` and
`instance.delete()` raises an exception with text `boom`. -/
def toyEnvBad : Env := ⟨fun m _ => m, fun _ => some toyVErr, some "boom"⟩

/-- C3 witness: creating a `Book` with a plain key and a many-to-many key
splits the data and delegates to `_save`. -/
theorem repository_create_spec_witness :
    (∀ kv ∈ ([("title", Val.str "x"), ("tags", Val.listy [Val.str "1"])] :
        List (String × Val)), (toyMeta.get_field kv.1).isSome) ∧
    Repository.create toyEnvOk toyMeta toyDB
        [("title", Val.str "x"), ("tags", Val.listy [Val.str "1"])] =
      (match Repository._save toyEnvOk
          ⟨toyDB.nextId, toyMeta,
            ([("title", Val.str "x"), ("tags", Val.listy [Val.str "1"])] :
              List (String × Val)).filter
              (fun kv => !(toyMeta.isM2MKey kv.1))⟩
          (([("title", Val.str "x"), ("tags", Val.listy [Val.str "1"])] :
              List (String × Val)).filter
              (fun kv => toyMeta.isM2MKey kv.1)) toyDB with
       | (Option.none, db1) =>
           (Option.none, db1,
             some ⟨toyDB.nextId, toyMeta,
               ([("title", Val.str "x"), ("tags", Val.listy [Val.str "1"])] :
                 List (String × Val)).filter
                 (fun kv => !(toyMeta.isM2MKey kv.1))⟩)
       | (some e, db1) => (some e, db1, Option.none)) :=
  have hall : ∀ kv ∈ ([("title", Val.str "x"),
      ("tags", Val.listy [Val.str "1"])] : List (String × Val)),
      (toyMeta.get_field kv.1).isSome := by
    intro kv hkv
    rcases List.mem_cons.mp hkv with rfl | h2
    · rfl
    · rcases List.mem_cons.mp h2 with rfl | h3
      · rfl
      · cases h3
  ⟨hall,
   (repository_create_spec toyEnvOk toyMeta toyDB
      [("title", Val.str "x"), ("tags", Val.listy [Val.str "1"])]).2.1 hall⟩

/-- C4 witness: with failing validation `_save` answers `BadRequest` with
the formatted errors and the database untouched, and with a failing
deletion `Repository.delete` answers `InternalServerError` with the
database untouched. -/
theorem repository_save_transaction_witness :
    toyEnvBad.fullClean toyInst = some toyVErr ∧
    toyEnvBad.deleteError = some "boom" ∧
    Repository._save toyEnvBad toyInst [] toyDB
      = (some (.badRequest Option.none
          (format_validation_errors toyEnvBad.fmt toyVErr)), toyDB) ∧
    Repository.delete toyEnvBad toyMeta toyDB 1
      = (some (.internalServerError [(Option.none, "boom")]), toyDB) :=
  ⟨rfl, rfl,
   (repository_save_transaction toyEnvBad toyInst [] toyDB toyMeta 1).1
     toyVErr rfl,
   (repository_save_transaction toyEnvBad toyInst [] toyDB toyMeta 1).2.2.2
     toyInst rfl "boom" rfl⟩

/-- C9 witness: updating the editable many-to-one `author` field of the
stored `Book` through the primary key `7` resolves the related instance and
delegates to `_save`. -/
theorem repository_update_spec_witness :
    Repository.read toyMeta toyDB 1 = .ok toyInst ∧
    pyEndsWith "author" "_id" = false ∧
    toyInst.meta.get_field "author"
      = some ⟨"author", .foreignKey "Author", some true⟩ ∧
    toyInst.meta.editableFields.contains "author" = true ∧
    (lookupRelated toyDB "Author").contains "7" = true ∧
    Repository.update toyEnvOk toyMeta toyDB 1 [("author", Val.str "7")] =
      (match Repository._save toyEnvOk
          (toyInst.setattr "author" (.inst "Author" "7")) [] toyDB with
       | (Option.none, db1) =>
           (Option.none, db1, some (toyInst.setattr "author" (.inst "Author" "7")))
       | (some e, db1) => (some e, db1, Option.none)) :=
  ⟨rfl, by decide, rfl, by decide, by decide,
   (repository_update_spec toyEnvOk toyMeta toyDB 1).2.1 toyInst "author"
     ⟨"author", .foreignKey "Author", some true⟩ "Author" "7"
     rfl (by decide) rfl rfl (by decide) (by decide)⟩

end DjangoInscode

namespace DjangoInscode

/-- C2 witness: on a concrete `error_dict` with three leaf errors across two
fields, the formatted list has exactly three entries. -/
theorem format_validation_errors_spec_witness :
    (format_validation_errors (fun m _ => m)
        (.dict [("a", [⟨"m1", []⟩, ⟨"m2", [("p", "q")]⟩]), ("b", [⟨"m3", []⟩])])).length
      = (([("a", [⟨"m1", []⟩, ⟨"m2", [("p", "q")]⟩]), ("b", [⟨"m3", []⟩])] :
            List (String × List FieldError)).map (fun e => e.2.length)).sum :=
  (format_validation_errors_spec (fun m _ => m)
    [("a", [⟨"m1", []⟩, ⟨"m2", [("p", "q")]⟩]), ("b", [⟨"m3", []⟩])] []).2.1

end DjangoInscode
